import Mathlib

/-!
Verification of the Healthy Meal app (src/app.py) against its
natural-language specification.

The Python module is shallowly embedded below.  Python strings are Lean
strings; Python string helpers used by the code (split on a comma, strip,
lower, substring containment, replace) are given explicit structural
definitions on the character list.  The two outbound HTTP calls of
fetch_from_spoonacular are modelled as inputs: an outcome value for the
lookup call and an outcome-valued function for the per-recipe detail call,
where an outcome is either a raised exception (network error or timeout)
or a response with a status code and a body that either parsed or is
malformed (in which case .json() raises).  The local dataset file is
modelled as an Option: none when open or json.load raises, some when it
is readable.  random.sample is modelled by passing in the drawn index
list.  Python list.sort(key, reverse=True) is a stable descending sort,
embedded as List.mergeSort with the reversed comparison on the key.
-/

/-- A nutrient figure: a numeric amount, or the string sentinel used by
the code when a named nutrient is absent. -/
inductive NutrientValue where
  | amount (n : Int)
  | na
deriving DecidableEq

/-- A recipe record as built by app.py.  source_url is present only on
externally sourced records, ingredients only on local records (a missing
key reads as the empty list via recipe.get), and match_score is set by
the local matcher (a missing key reads as none). -/
structure Recipe where
  name : String
  image : String
  description : String
  calories : NutrientValue
  protein : NutrientValue
  fat : NutrientValue
  health_benefits : List String
  youtube_url : String
  source_url : Option String := none
  ingredients : List String := []
  match_score : Option Nat := none
deriving DecidableEq

/-- One hit of the findByIngredients lookup: the fields app.py reads.
recipe.get('image', ...) defaults, so image is optional. -/
structure Hit where
  id : Nat
  title : String
  image : Option String := none
deriving DecidableEq

/-- One entry of the detail payload's nutrition.nutrients list. -/
structure Nutrient where
  name : String
  amount : Int
deriving DecidableEq

/-- The fields app.py reads from the per-recipe information payload.
All are read with .get, so each defaults when absent. -/
structure DetailData where
  nutrients : List Nutrient := []
  summary : Option String := none
  sourceUrl : Option String := none
  vegetarian : Bool := false
  vegan : Bool := false
  glutenFree : Bool := false
  dairyFree : Bool := false
  veryHealthy : Bool := false
deriving DecidableEq

/-- Body of an HTTP response: it parses to a value, or .json() raises on
it because it is malformed. -/
inductive Payload (α : Type) where
  | ok (val : α)
  | malformed
deriving DecidableEq

/-- Outcome of one requests.get call: the call raised (network error,
timeout), or it returned a status code together with a body. -/
inductive HttpOutcome (α : Type) where
  | raised
  | resp (status : Nat) (body : Payload α)
deriving DecidableEq

/-- Python list-of-chars semantics of str.split(sep) for a one-character
separator: every occurrence separates, empty chunks are kept, and the
empty string splits to a single empty chunk. -/
def splitOnChar (sep : Char) : List Char → List (List Char)
  | [] => [[]]
  | c :: rest =>
    let r := splitOnChar sep rest
    if c = sep then [] :: r
    else
      match r with
      | [] => [[c]]
      | chunk :: chunks => (c :: chunk) :: chunks

/-- Python str.strip(): drop leading and trailing whitespace. -/
def stripChars (l : List Char) : List Char :=
  ((l.dropWhile Char.isWhitespace).reverse.dropWhile Char.isWhitespace).reverse

/-- Python str.lower() on the character list. -/
def pyLower (s : String) : String :=
  String.mk (s.data.map Char.toLower)

/-- listStartsWith n h decides whether n is a leading segment of h. -/
def listStartsWith : List Char → List Char → Bool
  | [], _ => true
  | _ :: _, [] => false
  | n :: ns, h :: hs => n == h && listStartsWith ns hs

/-- Python substring containment (the in operator on str): needle occurs
contiguously inside hay; the empty needle is contained in everything. -/
def containsSub (needle : List Char) : List Char → Bool
  | [] => needle.isEmpty
  | c :: rest => listStartsWith needle (c :: rest) || containsSub needle rest

/-- app.py line 227: ingredient_list, the query terms — split the raw
input on commas, strip and lowercase each piece. -/
def parseIngredients (ingredients : String) : List String :=
  (splitOnChar ',' ingredients.data).map
    (fun cs => String.mk ((stripChars cs).map Char.toLower))

/-- The hardcoded single-recipe fallback list of get_default_recipes
(app.py lines 254-270). -/
def get_default_recipes : List Recipe :=
  [{ name := "Banana Oat Smoothie",
     image := "https://via.placeholder.com/300x200?text=Banana+Oat+Smoothie",
     description := "A creamy and nutritious smoothie perfect for breakfast or post-workout.",
     calories := .amount 250,
     protein := .amount 8,
     fat := .amount 5,
     health_benefits := ["High in fiber", "Energy boosting", "Heart healthy"],
     youtube_url := "https://www.youtube.com/results?search_query=banana+oat+smoothie+recipe",
     ingredients := ["banana", "oats", "milk", "honey"] }]

/-- The hardcoded three-recipe landing-page fallback of
get_default_recommendations (app.py lines 65-103). -/
def get_default_recommendations : List Recipe :=
  [{ name := "Banana Oat Pancakes",
     image := "https://images.unsplash.com/photo-1567620905732-2d1ec7ab7445?w=400&h=300&fit=crop",
     description := "Fluffy, healthy pancakes made with bananas and oats.",
     calories := .amount 320,
     protein := .amount 12,
     fat := .amount 8,
     health_benefits := ["High in fiber", "Energy boosting", "Heart healthy"],
     youtube_url := "https://www.youtube.com/results?search_query=banana+oat+pancakes+recipe",
     ingredients := ["banana", "oats", "eggs", "milk"] },
   { name := "Grilled Chicken & Rice Bowl",
     image := "https://images.unsplash.com/photo-1546069901-ba9599a7e63c?w=400&h=300&fit=crop",
     description := "A protein-packed bowl with tender grilled chicken and fluffy rice.",
     calories := .amount 450,
     protein := .amount 35,
     fat := .amount 12,
     health_benefits := ["High protein", "Muscle building", "Balanced macros"],
     youtube_url := "https://www.youtube.com/results?search_query=grilled+chicken+rice+bowl+recipe",
     ingredients := ["chicken", "rice", "broccoli", "carrots"] },
   { name := "Quinoa Salad Bowl",
     image := "https://images.unsplash.com/photo-1505253716362-afaea1d3d1af?w=400&h=300&fit=crop",
     description := "Refreshing quinoa salad with fresh vegetables and lemon dressing.",
     calories := .amount 350,
     protein := .amount 14,
     fat := .amount 15,
     health_benefits := ["Complete protein", "Gluten-free", "Rich in fiber"],
     youtube_url := "https://www.youtube.com/results?search_query=quinoa+salad+bowl+recipe",
     ingredients := ["quinoa", "tomatoes", "cucumber", "lemon"] }]

/-- app.py line 236: the match score of one candidate — how many query
terms occur as a substring of at least one of the recipe's lowercased
ingredient strings (each term counts at most once). -/
def recipeScore (ingredient_list : List String) (recipe : Recipe) : Nat :=
  let recipe_ingredients := recipe.ingredients.map pyLower
  ingredient_list.countP
    (fun ing => recipe_ingredients.any (fun r_ing => containsSub ing.data r_ing.data))

/-- The sort key of app.py line 243: x.get('match_score', 0). -/
def scoreKey (r : Recipe) : Nat :=
  r.match_score.getD 0

/-- The comparison realising list.sort(key=scoreKey, reverse=True):
a stable descending sort is the stable sort under this reversed
non-strict comparison. -/
def scoreLe (a b : Recipe) : Bool :=
  decide (scoreKey b ≤ scoreKey a)

/-- app.py lines 230-240: the matching_recipes list, in store order —
candidates with a positive match count, each with match_score set. -/
def matchingRecipesOf (ingredients : String) (all_recipes : List Recipe) : List Recipe :=
  let ingredient_list := parseIngredients ingredients
  all_recipes.filterMap (fun recipe =>
    let cnt := recipeScore ingredient_list recipe
    if 0 < cnt then some { recipe with match_score := some cnt } else none)

/-- app.py lines 216-251, fetch_from_local_dataset.  The store argument
is the outcome of opening and parsing local_recipes.json: none when that
raises (both except branches return the defaults), some contents on the
success path, which scores, filters, stable-sorts descending and takes
the first 6. -/
def fetch_from_local_dataset (ingredients : String) (store : Option (List Recipe)) : List Recipe :=
  match store with
  | none => get_default_recipes
  | some all_recipes =>
    (((matchingRecipesOf ingredients all_recipes).mergeSort scoreLe).take 6)

/-- app.py lines 177-187, search_youtube_video: spaces of the recipe
name become plus signs and the fixed suffix is appended. -/
def search_youtube_video (recipe_name : String) : String :=
  let search_query :=
    String.mk (recipe_name.data.map (fun c => if c = ' ' then '+' else c)) ++ "+recipe+tutorial"
  "https://www.youtube.com/results?search_query=" ++ search_query

/-- app.py lines 190-213, extract_health_benefits: one tag per set
dietary flag, in the code's fixed order; the three generic tags when no
flag is set. -/
def extract_health_benefits (recipe_data : DetailData) : List String :=
  let benefits :=
    (if recipe_data.vegetarian then ["Vegetarian-friendly"] else []) ++
    (if recipe_data.vegan then ["Vegan-friendly"] else []) ++
    (if recipe_data.glutenFree then ["Gluten-free"] else []) ++
    (if recipe_data.dairyFree then ["Dairy-free"] else []) ++
    (if recipe_data.veryHealthy then ["Very healthy option"] else [])
  if benefits.isEmpty then
    ["Nutritious meal", "Balanced ingredients", "Home-cooked goodness"]
  else benefits

/-- app.py lines 148-150: next((n.amount for n in nutrients if n.name
matches), with the not-available sentinel as the default. -/
def nutrientAmount (nutrients : List Nutrient) (nm : String) : NutrientValue :=
  match nutrients.find? (fun n => n.name == nm) with
  | some n => .amount n.amount
  | none => .na

/-- app.py lines 144-165: the formatted_recipe dictionary built from one
lookup hit and its 200-status detail payload. -/
def formatRecipe (recipe : Hit) (detail_data : DetailData) : Recipe :=
  { name := recipe.title,
    image := recipe.image.getD "https://via.placeholder.com/300x200?text=No+Image",
    description := detail_data.summary.getD "A delicious and healthy recipe!",
    calories := nutrientAmount detail_data.nutrients "Calories",
    protein := nutrientAmount detail_data.nutrients "Protein",
    fat := nutrientAmount detail_data.nutrients "Fat",
    health_benefits := extract_health_benefits detail_data,
    youtube_url := search_youtube_video recipe.title,
    source_url := some (detail_data.sourceUrl.getD "#") }

/-- app.py lines 133-166: the enrichment loop.  A raised detail call or
a malformed 200 body raises out of the surrounding try, discarding the
accumulator; a non-200 detail response merely skips that hit. -/
def processHits (detail : Nat → HttpOutcome DetailData) :
    List Hit → List Recipe → Option (List Recipe)
  | [], formatted_recipes => some formatted_recipes
  | recipe :: rest, formatted_recipes =>
    match detail recipe.id with
    | .raised => none
    | .resp status body =>
      if status = 200 then
        match body with
        | .malformed => none
        | .ok detail_data =>
          processHits detail rest (formatted_recipes ++ [formatRecipe recipe detail_data])
      else processHits detail rest formatted_recipes

/-- The literal the key is compared against at app.py line 112. -/
def SPOONACULAR_PLACEHOLDER : String := "YOUR_API_KEY_HERE"

/-- app.py lines 106-174, fetch_from_spoonacular.  The lookup and detail
calls are inputs; every raised exception is caught by the single try and
yields none, as does a non-200 lookup status via the final return. -/
def fetch_from_spoonacular (apiKey : String) (lookup : HttpOutcome (List Hit))
    (detail : Nat → HttpOutcome DetailData) : Option (List Recipe) :=
  if apiKey = SPOONACULAR_PLACEHOLDER then none
  else
    match lookup with
    | .raised => none
    | .resp status body =>
      if status = 200 then
        match body with
        | .malformed => none
        | .ok recipes_data => processHits detail recipes_data []
      else none

/-- What one hit contributes on the no-exception path: its formatted
record when its detail call returns 200 with a well-formed body, nothing
when the detail status is not 200. -/
def enrichHit (detail : Nat → HttpOutcome DetailData) (hit : Hit) : Option Recipe :=
  match detail hit.id with
  | .raised => none
  | .resp status body =>
    if status = 200 then
      match body with
      | .malformed => none
      | .ok detail_data => some (formatRecipe hit detail_data)
    else none

/-- The rendered results page: the recipe list handed to result.html
together with the echoed ingredients string. -/
structure ResultPage where
  recipes : List Recipe
  ingredients : String
deriving DecidableEq

/-- app.py lines 24-36, the search handler.  The form field is an
Option (request.form.get defaults to the empty string); the external
tier is an input function of the ingredients string; the store is the
loading outcome passed through to fetch_from_local_dataset.  The
fallback condition is Python truthiness: None and the empty list both
fail the test at line 33. -/
def search (form_ingredients : Option String)
    (spoon : String → Option (List Recipe))
    (store : Option (List Recipe)) : ResultPage :=
  let ingredients := form_ingredients.getD ""
  let recipes :=
    match spoon ingredients with
    | none => fetch_from_local_dataset ingredients store
    | some l => if l.isEmpty then fetch_from_local_dataset ingredients store else l
  { recipes := recipes, ingredients := ingredients }

/-- Models random.sample(l, k) for the Recommendation Selector: the
random draw is the list of drawn positions; random.sample draws k
distinct positions, which the hypotheses of the theorems about it
state. -/
def pySample {α : Type} (l : List α) (sel : List Nat) : List α :=
  sel.filterMap (fun i => l.get? i)

/-- app.py lines 39-62, get_recommended_recipes.  The store argument is
the outcome of loading local_recipes.json (none when opening or parsing
raises; both except branches return the defaults); sel is the random
draw of positions consumed when the store has at least 3 entries. -/
def get_recommended_recipes (store : Option (List Recipe)) (sel : List Nat) : List Recipe :=
  match store with
  | none => get_default_recommendations
  | some all_recipes =>
    if 3 ≤ all_recipes.length then pySample all_recipes sel
    else all_recipes

/-- Concrete recipe used to exhibit a store on which the matcher finds
nothing: its only ingredient does not contain the query term. -/
def milkOnlyRecipe : Recipe :=
  { name := "Warm Milk",
    image := "https://example.org/milk.jpg",
    description := "Just warm milk.",
    calories := .amount 120,
    protein := .amount 6,
    fat := .amount 5,
    health_benefits := ["Calcium"],
    youtube_url := "https://www.youtube.com/results?search_query=warm+milk+recipe",
    ingredients := ["milk"] }

/-- Concrete store recipe matched by the query term banana. -/
def oatmealRecipe : Recipe :=
  { name := "Banana Oatmeal",
    image := "https://example.org/oatmeal.jpg",
    description := "Oatmeal with banana.",
    calories := .amount 280,
    protein := .amount 9,
    fat := .amount 4,
    health_benefits := ["High in fiber"],
    youtube_url := "https://www.youtube.com/results?search_query=banana+oatmeal+recipe",
    ingredients := ["banana", "oats"] }

/-- Concrete detail payload for the hit whose detail call succeeds. -/
def okDetailData : DetailData :=
  { nutrients := [{ name := "Calories", amount := 100 }],
    summary := some "Tasty.",
    sourceUrl := some "https://example.org/a",
    vegetarian := true }

/-- Detail-call behaviour in which hit 1 succeeds with status 200 and
every other hit answers with status 500: no exception is raised
anywhere. -/
def mixedDetailCalls : Nat → HttpOutcome DetailData :=
  fun i => if i = 1 then .resp 200 (.ok okDetailData) else .resp 500 .malformed

/-- C7: extract_health_benefits yields exactly the three generic tags
when no dietary flag is set, and otherwise exactly the tags of the set
flags in the fixed order vegetarian, vegan, gluten-free, dairy-free,
very-healthy. -/
theorem extract_health_benefits_spec (d : DetailData) :
    extract_health_benefits d =
      if d.vegetarian || d.vegan || d.glutenFree || d.dairyFree || d.veryHealthy then
        ([(d.vegetarian, "Vegetarian-friendly"), (d.vegan, "Vegan-friendly"),
          (d.glutenFree, "Gluten-free"), (d.dairyFree, "Dairy-free"),
          (d.veryHealthy, "Very healthy option")].filterMap
            (fun p => if p.1 then some p.2 else none))
      else ["Nutritious meal", "Balanced ingredients", "Home-cooked goodness"] := by
  rcases d with ⟨nut, summ, src, v1, v2, v3, v4, v5⟩
  cases v1 <;> cases v2 <;> cases v3 <;> cases v4 <;> cases v5 <;> rfl

/-- C8 counterexample: the hardcoded default recipe is named Banana Oat
Smoothie, yet its youtube_url does not contain the substring
Banana+Oat+Smoothie+recipe+tutorial (it is lowercase and lacks the
tutorial suffix), so not every recipe's youtube_url follows the
name-derived construction. -/
theorem default_recipe_url_not_constructed :
    (get_default_recipes.map
        (fun r => (r.name,
          containsSub "Banana+Oat+Smoothie+recipe+tutorial".data r.youtube_url.data)))
      = [("Banana Oat Smoothie", false)] := by
  decide

/-- C8 amended: recipes formatted from the external service get their
youtube_url from search_youtube_video, which replaces spaces with plus
signs and appends the suffix, so for the name Banana Oat Smoothie the
resulting URL contains Banana+Oat+Smoothie+recipe+tutorial; the
hardcoded default recipes instead carry fixed literal URLs. -/
theorem youtube_url_construction (recipe : Hit) (detail_data : DetailData) :
    (formatRecipe recipe detail_data).youtube_url = search_youtube_video recipe.title ∧
    containsSub "Banana+Oat+Smoothie+recipe+tutorial".data
      (search_youtube_video "Banana Oat Smoothie").data = true := by
  exact ⟨rfl, by decide⟩

/-- The enrichment loop never aborts when no detail call raises and no
200-status detail body is malformed: it returns the accumulator followed
by the contribution of each hit, skipping the non-200 ones. -/
theorem processHits_eq_filterMap (detail : Nat → HttpOutcome DetailData)
    (hits : List Hit) (acc : List Recipe)
    (h : ∀ hit ∈ hits, detail hit.id ≠ .raised ∧ detail hit.id ≠ .resp 200 .malformed) :
    processHits detail hits acc = some (acc ++ hits.filterMap (enrichHit detail)) := by
  induction hits generalizing acc with
  | nil => simp [processHits]
  | cons hit rest ih =>
    have hhit := h hit (by simp)
    have hrest : ∀ x ∈ rest, detail x.id ≠ .raised ∧ detail x.id ≠ .resp 200 .malformed :=
      fun x hx => h x (by simp [hx])
    cases hd : detail hit.id with
    | raised => exact absurd hd hhit.1
    | resp status body =>
      by_cases hs : status = 200
      · subst hs
        cases body with
        | malformed => exact absurd hd hhit.2
        | ok detail_data =>
          have he : enrichHit detail hit = some (formatRecipe hit detail_data) := by
            simp [enrichHit, hd]
          have hp : processHits detail (hit :: rest) acc
              = processHits detail rest (acc ++ [formatRecipe hit detail_data]) := by
            simp [processHits, hd]
          rw [hp, ih _ hrest, List.filterMap_cons, he]
          simp
      · have he : enrichHit detail hit = none := by
          simp [enrichHit, hd, hs]
        have hp : processHits detail (hit :: rest) acc = processHits detail rest acc := by
          simp [processHits, hd, hs]
        rw [hp, ih _ hrest, List.filterMap_cons, he]

/-- The enrichment loop aborts, discarding the accumulator, as soon as
it reaches a hit whose detail call raises or answers 200 with a
malformed body: the presence of any such hit forces the unavailable
result. -/
theorem processHits_none_of_bad (detail : Nat → HttpOutcome DetailData)
    (hits : List Hit) :
    ∀ acc,
      (∃ hit ∈ hits, detail hit.id = .raised ∨ detail hit.id = .resp 200 .malformed) →
      processHits detail hits acc = none := by
  induction hits with
  | nil =>
    intro acc h
    simp at h
  | cons hit rest ih =>
    intro acc h
    obtain ⟨x, hx, hbad⟩ := h
    rcases List.mem_cons.mp hx with rfl | hxr
    · rcases hbad with hb | hb <;> simp [processHits, hb]
    · cases hd : detail hit.id with
      | raised => simp [processHits, hd]
      | resp status body =>
        by_cases hs : status = 200
        · subst hs
          cases body with
          | malformed => simp [processHits, hd]
          | ok detail_data =>
            have hp : processHits detail (hit :: rest) acc
                = processHits detail rest (acc ++ [formatRecipe hit detail_data]) := by
              simp [processHits, hd]
            rw [hp]
            exact ih _ ⟨x, hxr, hbad⟩
        · have hp : processHits detail (hit :: rest) acc = processHits detail rest acc := by
            simp [processHits, hd, hs]
          rw [hp]
          exact ih _ ⟨x, hxr, hbad⟩

/-- C3 counterexample: with a valid key, a successful lookup returning
two hits, and detail calls that raise nowhere but answer 500 for the
second hit, fetch_from_spoonacular returns the partial one-element list
of the already-enriched first hit instead of the unavailable sentinel
None that the claim requires for a non-200 detail status. -/
theorem spoonacular_partial_on_detail_non200 :
    fetch_from_spoonacular "somekey"
        (.resp 200 (.ok [{ id := 1, title := "A" }, { id := 2, title := "B" }]))
        mixedDetailCalls
      = some [formatRecipe { id := 1, title := "A" } okDetailData] := by
  rfl

/-- C3 amended: a raised lookup call, a non-200 lookup status, a
malformed lookup payload, or a placeholder key each yield None, and so
does a successful lookup one of whose hits has a detail call that raises
or answers 200 with a malformed body; but a non-200 detail status does
not abort: when no detail call raises and no 200-status detail body is
malformed, the hits whose detail status is 200 are enriched and
returned, the rest skipped. -/
theorem spoonacular_failure_behavior (apiKey : String)
    (detail : Nat → HttpOutcome DetailData) :
    (∀ lookup, apiKey = SPOONACULAR_PLACEHOLDER →
      fetch_from_spoonacular apiKey lookup detail = none) ∧
    (fetch_from_spoonacular apiKey .raised detail = none) ∧
    (∀ status body, status ≠ 200 →
      fetch_from_spoonacular apiKey (.resp status body) detail = none) ∧
    (fetch_from_spoonacular apiKey (.resp 200 .malformed) detail = none) ∧
    (∀ hits,
      (∃ hit ∈ hits, detail hit.id = .raised ∨ detail hit.id = .resp 200 .malformed) →
      fetch_from_spoonacular apiKey (.resp 200 (.ok hits)) detail = none) ∧
    (∀ hits, apiKey ≠ SPOONACULAR_PLACEHOLDER →
      (∀ hit ∈ hits, detail hit.id ≠ .raised ∧ detail hit.id ≠ .resp 200 .malformed) →
      fetch_from_spoonacular apiKey (.resp 200 (.ok hits)) detail
        = some (hits.filterMap (enrichHit detail))) := by
  refine ⟨?_, ?_, ?_, ?_, ?_, ?_⟩
  · intro lookup hk
    simp [fetch_from_spoonacular, hk]
  · by_cases hk : apiKey = SPOONACULAR_PLACEHOLDER <;>
      simp [fetch_from_spoonacular, hk]
  · intro status body hs
    by_cases hk : apiKey = SPOONACULAR_PLACEHOLDER <;>
      simp [fetch_from_spoonacular, hk, hs]
  · by_cases hk : apiKey = SPOONACULAR_PLACEHOLDER <;>
      simp [fetch_from_spoonacular, hk]
  · intro hits h
    by_cases hk : apiKey = SPOONACULAR_PLACEHOLDER
    · simp [fetch_from_spoonacular, hk]
    · simp only [fetch_from_spoonacular, if_neg hk, if_pos rfl]
      exact processHits_none_of_bad detail hits [] h
  · intro hits hk h
    simp only [fetch_from_spoonacular, if_neg hk, if_pos rfl]
    rw [processHits_eq_filterMap detail hits [] h]
    simp

/-- Witness for the amended C3 theorem: a concrete run whose only hit
has a raised detail call returns None, and a concrete run whose only
hit has a 404 detail status returns the empty list, not None. -/
theorem spoonacular_failure_behavior_witness :
    fetch_from_spoonacular "somekey" (.resp 200 (.ok [{ id := 7, title := "C" }]))
        (fun _ => .raised)
      = none ∧
    fetch_from_spoonacular "somekey" (.resp 200 (.ok [{ id := 7, title := "C" }]))
        (fun _ => .resp 404 .malformed)
      = some [] := by
  have h1 := (spoonacular_failure_behavior "somekey" (fun _ => .raised)).2.2.2.2.1
      [{ id := 7, title := "C" }] ⟨{ id := 7, title := "C" }, by decide, Or.inl rfl⟩
  have h2 := (spoonacular_failure_behavior "somekey"
      (fun _ => .resp 404 .malformed)).2.2.2.2.2
      [{ id := 7, title := "C" }] (by decide) (by decide)
  exact ⟨h1, by simpa using h2⟩

/-- C5 counterexample: when the external tier returns the empty list —
not the unavailable sentinel None — the handler still invokes the local
matcher, because the fallback test at app.py line 33 is Python
truthiness: here the rendered list is the matcher's non-empty output,
not the empty list the external tier produced. -/
theorem search_falls_back_on_empty_external_list :
    (search (some "banana") (fun _ => some []) (some [oatmealRecipe])).recipes
      = [{ oatmealRecipe with match_score := some 1 }] := by
  have hm : matchingRecipesOf "banana" [oatmealRecipe]
      = [{ oatmealRecipe with match_score := some 1 }] := by decide
  simp [search, fetch_from_local_dataset, hm]

/-- C5 amended: the handler reads the ingredients field with the empty
string as default, echoes it back, renders the external tier's list
whenever that list is non-empty, and invokes the Ingredient Matcher
exactly when the external tier returned None or the empty list. -/
theorem search_handler_routing (form_ingredients : Option String)
    (spoon : String → Option (List Recipe)) (store : Option (List Recipe)) :
    (search form_ingredients spoon store).ingredients = form_ingredients.getD "" ∧
    (spoon (form_ingredients.getD "") = none ∨ spoon (form_ingredients.getD "") = some [] →
      (search form_ingredients spoon store).recipes
        = fetch_from_local_dataset (form_ingredients.getD "") store) ∧
    (∀ l, spoon (form_ingredients.getD "") = some l → l ≠ [] →
      (search form_ingredients spoon store).recipes = l) := by
  refine ⟨rfl, ?_, ?_⟩
  · rintro (hs | hs) <;> simp [search, hs]
  · intro l hs hl
    simp [search, hs, hl]

/-- Witness for the amended C5 theorem: with no external service and an
absent form field the handler echoes the empty string and renders the
local tier's output for the empty query. -/
theorem search_handler_routing_witness :
    (search none (fun _ => none) none).ingredients = "" ∧
    (search none (fun _ => none) none).recipes = fetch_from_local_dataset "" none := by
  have h := search_handler_routing none (fun _ => none) none
  exact ⟨h.1, h.2.1 (Or.inl rfl)⟩

/-- C4 counterexample: with the external tier unavailable and a readable
store whose only recipe shares no substring with the query, the handler
renders the empty list — the claimed non-empty result does not hold on
every such request. -/
theorem search_unavailable_can_render_empty :
    (search (some "xyz") (fun _ => none) (some [milkOnlyRecipe])).recipes = [] := by
  have hm : matchingRecipesOf "xyz" [milkOnlyRecipe] = [] := by decide
  simp [search, fetch_from_local_dataset, hm]

/-- C4 amended: when the external tier is unavailable the handler
renders exactly the local tier's output (which falls through to the
hardcoded default tier on an unreadable store); that list is non-empty
whenever the store is unreadable, but it may be empty on a readable
store with no matching recipe. -/
theorem search_unavailable_uses_local_tier (form_ingredients : Option String)
    (store : Option (List Recipe)) :
    (search form_ingredients (fun _ => none) store).recipes
      = fetch_from_local_dataset (form_ingredients.getD "") store ∧
    (store = none → (search form_ingredients (fun _ => none) store).recipes ≠ []) := by
  constructor
  · simp [search]
  · intro hstore
    subst hstore
    simp [search, fetch_from_local_dataset, get_default_recipes]

/-- Witness for the amended C4 theorem: a concrete request against an
unreadable store renders the default tier's list, which is non-empty. -/
theorem search_unavailable_uses_local_tier_witness :
    (search (some "banana") (fun _ => none) none).recipes
      = fetch_from_local_dataset "banana" none ∧
    (search (some "banana") (fun _ => none) none).recipes ≠ [] := by
  have h := search_unavailable_uses_local_tier (some "banana") none
  exact ⟨h.1, h.2 rfl⟩

/-- Drawing positions that all lie inside the list yields one element
per position. -/
theorem pySample_length {α : Type} (l : List α) (sel : List Nat)
    (hb : ∀ i ∈ sel, i < l.length) :
    (pySample l sel).length = sel.length := by
  induction sel with
  | nil => rfl
  | cons i rest ih =>
    have hi : i < l.length := hb i (by simp)
    obtain ⟨a, ha⟩ : ∃ a, l.get? i = some a := ⟨l.get ⟨i, hi⟩, List.get?_eq_get hi⟩
    have hrest : ∀ j ∈ rest, j < l.length := fun j hj => hb j (by simp [hj])
    simp only [pySample, List.filterMap_cons] at *
    rw [ha]
    simpa using ih hrest

/-- C6: the Recommendation Selector returns exactly 3 records, all drawn
from the store, when the store has at least 3 entries and the draw is
random.sample's list of 3 distinct in-range positions; it returns the
whole store when it has fewer than 3 entries (whatever the unused draw
is); and it returns the hardcoded 3-recipe default list when the store
cannot be loaded or parsed. -/
theorem recommendation_selector_spec (store : List Recipe) (sel : List Nat) :
    (3 ≤ store.length → sel.length = 3 → sel.Nodup → (∀ i ∈ sel, i < store.length) →
      (get_recommended_recipes (some store) sel).length = 3 ∧
      ∀ r ∈ get_recommended_recipes (some store) sel, r ∈ store) ∧
    (store.length < 3 → get_recommended_recipes (some store) sel = store) ∧
    (get_recommended_recipes none sel = get_default_recommendations ∧
      (get_recommended_recipes none sel).length = 3) := by
  refine ⟨?_, ?_, rfl, rfl⟩
  · intro h3 hlen _hnd hb
    constructor
    · simp only [get_recommended_recipes, if_pos h3]
      rw [pySample_length store sel hb, hlen]
    · intro r hr
      simp only [get_recommended_recipes, if_pos h3, pySample] at hr
      obtain ⟨i, _, hi⟩ := List.mem_filterMap.mp hr
      exact List.get?_mem hi
  · intro h3
    simp [get_recommended_recipes, Nat.not_le.mpr h3]

/-- Witness for C6: drawing positions 2, 0, 1 from a concrete 3-recipe
store returns 3 records, a concrete 1-recipe store is returned whole,
and an unreadable store yields the default triple. -/
theorem recommendation_selector_spec_witness :
    (get_recommended_recipes (some get_default_recommendations) [2, 0, 1]).length = 3 ∧
    get_recommended_recipes (some get_default_recipes) [2, 0, 1] = get_default_recipes ∧
    get_recommended_recipes none [2, 0, 1] = get_default_recommendations := by
  have h1 := recommendation_selector_spec get_default_recommendations [2, 0, 1]
  have h2 := recommendation_selector_spec get_default_recipes [2, 0, 1]
  exact ⟨(h1.1 (by decide) (by decide) (by decide) (by decide)).1,
    h2.2.1 (by decide), h1.2.2.1⟩

/-- Concrete store recipe realising the spec's worked example: its
ingredient list is exactly banana, oats, milk, honey. -/
def smoothieStoreRecipe : Recipe :=
  { name := "Berry Banana Smoothie",
    image := "https://example.org/smoothie.jpg",
    description := "A fruity smoothie.",
    calories := .amount 240,
    protein := .amount 7,
    fat := .amount 4,
    health_benefits := ["Energy boosting"],
    youtube_url := "https://www.youtube.com/results?search_query=berry+banana+smoothie+recipe",
    ingredients := ["banana", "oats", "milk", "honey"] }

/-- The sort comparison is transitive. -/
theorem scoreLe_trans (a b c : Recipe) (hab : scoreLe a b = true)
    (hbc : scoreLe b c = true) : scoreLe a c = true := by
  simp only [scoreLe, decide_eq_true_eq] at *
  omega

/-- The sort comparison is total. -/
theorem scoreLe_total (a b : Recipe) : (scoreLe a b || scoreLe b a) = true := by
  simp only [scoreLe, Bool.or_eq_true, decide_eq_true_eq]
  omega

/-- Every record of the matching_recipes list carries the positive match
count that let it through the filter. -/
theorem mem_matchingRecipesOf {ing : String} {store : List Recipe} {r : Recipe}
    (h : r ∈ matchingRecipesOf ing store) :
    ∃ m, r.match_score = some m ∧ 1 ≤ m := by
  simp only [matchingRecipesOf, List.mem_filterMap] at h
  obtain ⟨a, _, ha⟩ := h
  by_cases hc : 0 < recipeScore (parseIngredients ing) a
  · rw [if_pos hc] at ha
    obtain rfl :
        { a with match_score := some (recipeScore (parseIngredients ing) a) } = r :=
      Option.some.inj ha
    exact ⟨recipeScore (parseIngredients ing) a, rfl, hc⟩
  · rw [if_neg hc] at ha
    exact absurd ha (by simp)

/-- On a readable store, the matcher output is the first 6 entries of
the stable descending sort of the matching records. -/
theorem fetch_local_some (ingredients : String) (store : List Recipe) :
    fetch_from_local_dataset ingredients (some store)
      = ((matchingRecipesOf ingredients store).mergeSort scoreLe).take 6 := rfl

/-- Every record the matcher returns carries a match score of at least
one. -/
theorem fetch_local_min_score {ingredients : String} {store : List Recipe} {r : Recipe}
    (hr : r ∈ fetch_from_local_dataset ingredients (some store)) :
    ∃ m, r.match_score = some m ∧ 1 ≤ m := by
  rw [fetch_local_some] at hr
  exact mem_matchingRecipesOf (List.mem_mergeSort.mp (List.mem_of_mem_take hr))

/-- The matcher output is sorted by non-increasing match score. -/
theorem fetch_local_sorted (ingredients : String) (store : List Recipe) :
    List.Pairwise (fun a b => scoreKey b ≤ scoreKey a)
      (fetch_from_local_dataset ingredients (some store)) := by
  rw [fetch_local_some]
  have hs : List.Pairwise (fun a b => scoreLe a b = true)
      ((matchingRecipesOf ingredients store).mergeSort scoreLe) :=
    List.sorted_mergeSort scoreLe_trans scoreLe_total _
  exact (List.Pairwise.sublist (List.take_sublist 6 _) hs).imp
    (fun hab => by simpa [scoreLe] using hab)

/-- Stability: for each score value, the records of that score in the
matcher output are an initial run of the records of that score in the
matching list, which is in store order. -/
theorem fetch_local_stable (ingredients : String) (store : List Recipe) (m : Nat) :
    ∃ t,
      (fetch_from_local_dataset ingredients (some store)).filter
          (fun r => scoreKey r == m) ++ t
        = (matchingRecipesOf ingredients store).filter (fun r => scoreKey r == m) := by
  set p : Recipe → Bool := fun r => scoreKey r == m with hp
  set matching := matchingRecipesOf ingredients store with hmatching
  set sorted := matching.mergeSort scoreLe with hsorted
  have hperm : (sorted.filter p).Perm (matching.filter p) :=
    (List.mergeSort_perm matching scoreLe).filter p
  have hpw : List.Pairwise (fun a b => scoreLe a b = true) (matching.filter p) := by
    apply List.pairwise_of_forall_mem_list
    intro a ha b hb
    have ha2 : scoreKey a = m := by simpa [hp] using (List.mem_filter.mp ha).2
    have hb2 : scoreKey b = m := by simpa [hp] using (List.mem_filter.mp hb).2
    simp [scoreLe, ha2, hb2]
  have hsub : (matching.filter p).Sublist sorted :=
    List.sublist_mergeSort scoreLe_trans scoreLe_total hpw (List.filter_sublist matching)
  have hsub2 : ((matching.filter p).filter p).Sublist (sorted.filter p) := hsub.filter p
  have hff : (matching.filter p).filter p = matching.filter p := by
    rw [List.filter_filter]
    apply List.filter_congr
    intro x _
    simp
  rw [hff] at hsub2
  have heq : matching.filter p = sorted.filter p :=
    hsub2.eq_of_length hperm.symm.length_eq
  refine ⟨(sorted.drop 6).filter p, ?_⟩
  rw [fetch_local_some, ← List.filter_append, List.take_append_drop, ← heq]

/-- C1: on a readable store, the matcher returns at most 6 records and
every returned record's match score is at least 1 (zero-count
candidates having been discarded). -/
theorem ingredient_matcher_caps_and_scores (ingredients : String) (store : List Recipe) :
    (fetch_from_local_dataset ingredients (some store)).length ≤ 6 ∧
    ∀ r ∈ fetch_from_local_dataset ingredients (some store),
      ∃ m, r.match_score = some m ∧ 1 ≤ m := by
  constructor
  · rw [fetch_local_some]
    exact List.length_take_le 6 _
  · intro r hr
    exact fetch_local_min_score hr

/-- C2: on a readable store, the matcher output is sorted by descending
match score, and for every score value the returned records of that
score form an initial run of the matching records of that score taken in
store order, i.e. the sort is stable. -/
theorem ingredient_matcher_sorted_stable (ingredients : String) (store : List Recipe) :
    List.Pairwise (fun a b => scoreKey b ≤ scoreKey a)
      (fetch_from_local_dataset ingredients (some store)) ∧
    ∀ m : Nat, ∃ t,
      (fetch_from_local_dataset ingredients (some store)).filter
          (fun r => scoreKey r == m) ++ t
        = (matchingRecipesOf ingredients store).filter (fun r => scoreKey r == m) :=
  ⟨fetch_local_sorted ingredients store, fetch_local_stable ingredients store⟩

/-- C9: for the input banana, oats, a recipe whose ingredient list is
banana, oats, milk, honey scores exactly 2 (each query term counted
once); if it is in the store it enters the matching list with that
score; the output is ordered by non-increasing score, so every score-2
record precedes every score-1 record; and no returned record scores
0. -/
theorem banana_oats_example (store : List Recipe) (r : Recipe)
    (h : r.ingredients = ["banana", "oats", "milk", "honey"]) :
    recipeScore (parseIngredients "banana, oats") r = 2 ∧
    (r ∈ store →
      { r with match_score := some 2 } ∈ matchingRecipesOf "banana, oats" store) ∧
    List.Pairwise (fun a b => scoreKey b ≤ scoreKey a)
      (fetch_from_local_dataset "banana, oats" (some store)) ∧
    ∀ x ∈ fetch_from_local_dataset "banana, oats" (some store), 1 ≤ scoreKey x := by
  have hsc : recipeScore (parseIngredients "banana, oats") r = 2 := by
    simp only [recipeScore, h]
    rfl
  refine ⟨hsc, ?_, fetch_local_sorted _ _, ?_⟩
  · intro hr
    simp only [matchingRecipesOf, List.mem_filterMap]
    refine ⟨r, hr, ?_⟩
    simp [hsc]
  · intro x hx
    obtain ⟨m, hm, h1⟩ := fetch_local_min_score hx
    simpa [scoreKey, hm] using h1

/-- Witness for C9 at a concrete store: the example recipe scores 2 and
enters the matching list with match_score 2. -/
theorem banana_oats_example_witness :
    recipeScore (parseIngredients "banana, oats") smoothieStoreRecipe = 2 ∧
    { smoothieStoreRecipe with match_score := some 2 }
      ∈ matchingRecipesOf "banana, oats" [smoothieStoreRecipe] := by
  have h := banana_oats_example [smoothieStoreRecipe] smoothieStoreRecipe (by decide)
  exact ⟨h.1, h.2.1 (by decide)⟩

/-- The empty needle is a substring of every string. -/
theorem containsSub_nil_left (l : List Char) : containsSub [] l = true := by
  cases l <;> rfl

/-- The query term produced by the empty input matches every non-empty
ingredient string. -/
theorem containsSub_empty_needle (s : String) : containsSub "".data s.data = true :=
  containsSub_nil_left s.data

/-- Against the single empty query term, a recipe scores 1 exactly when
its ingredient list is non-empty, else 0. -/
theorem recipeScore_empty_query (r : Recipe) :
    recipeScore [""] r = if r.ingredients.isEmpty then 0 else 1 := by
  simp only [recipeScore]
  cases hi : r.ingredients with
  | nil => simp [hi]
  | cons x xs =>
    simp [hi, List.countP_cons, List.countP_nil, containsSub_nil_left,
      containsSub_empty_needle]

/-- For the empty input string the matching list is exactly the store
recipes with a non-empty ingredient list, in store order, each scored
1. -/
theorem matching_empty_query (store : List Recipe) :
    matchingRecipesOf "" store
      = (store.filter (fun r => !r.ingredients.isEmpty)).map
          (fun r => { r with match_score := some 1 }) := by
  simp only [matchingRecipesOf]
  rw [show parseIngredients "" = [""] from rfl]
  induction store with
  | nil => rfl
  | cons a rest ih =>
    rw [List.filterMap_cons, List.filter_cons]
    by_cases ha : a.ingredients.isEmpty
    · have h0 : recipeScore [""] a = 0 := by rw [recipeScore_empty_query, if_pos ha]
      simp [h0, ha, ih]
    · have h1 : recipeScore [""] a = 1 := by rw [recipeScore_empty_query, if_neg ha]
      simp [h1, ha, ih]

/-- C10: for the empty ingredients input (the missing-field default) on
a readable store, the matcher returns min 6 k records, k being the
number of store recipes with a non-empty ingredient list, each returned
record scoring exactly 1; in particular the result is non-empty whenever
such a recipe exists. -/
theorem empty_input_matches_all (store : List Recipe) :
    (fetch_from_local_dataset "" (some store)).length
      = min 6 (store.filter (fun r => !r.ingredients.isEmpty)).length ∧
    (∀ x ∈ fetch_from_local_dataset "" (some store), x.match_score = some 1) ∧
    ((store.filter (fun r => !r.ingredients.isEmpty)).length ≠ 0 →
      fetch_from_local_dataset "" (some store) ≠ []) := by
  have hm := matching_empty_query store
  have hlen : (fetch_from_local_dataset "" (some store)).length
      = min 6 (store.filter (fun r => !r.ingredients.isEmpty)).length := by
    rw [fetch_local_some, List.length_take, List.length_mergeSort, hm, List.length_map]
  refine ⟨hlen, ?_, ?_⟩
  · intro x hx
    rw [fetch_local_some] at hx
    have hx2 : x ∈ matchingRecipesOf "" store :=
      List.mem_mergeSort.mp (List.mem_of_mem_take hx)
    rw [hm] at hx2
    obtain ⟨y, _, rfl⟩ := List.mem_map.mp hx2
    rfl
  · intro hk hnil
    rw [hnil] at hlen
    simp only [List.length_nil] at hlen
    omega

/-- Witness for C10: on a one-recipe store with a non-empty ingredient
list the empty query returns a non-empty result of the stated length. -/
theorem empty_input_matches_all_witness :
    (fetch_from_local_dataset "" (some [oatmealRecipe])).length
      = min 6 (([oatmealRecipe].filter (fun r => !r.ingredients.isEmpty)).length) ∧
    fetch_from_local_dataset "" (some [oatmealRecipe]) ≠ [] := by
  have h := empty_input_matches_all [oatmealRecipe]
  exact ⟨h.1, h.2.2 (by decide)⟩
